import Mathlib

/-!
Verification of the worldmonitor local API sidecar and related services.

Shallow embedding of `src-tauri/sidecar/local-api-server.mjs` (route matching,
priority ordering, route-table construction, dispatch/fallback policy, header
stripping), `src/services/humanity-counters.ts` (wall-clock counters), and the
desktop runtime detection / fetch patch module.

Conventions: JS strings are `List Char` (so every operation is a structural
recursion the kernel can evaluate); Node/Web APIs that perform I/O — the
filesystem walk, dynamic `import`, `fetch`, URL parsing — are modelled by
explicit data (a directory-tree type, outcome oracles) threaded as arguments,
while the decision logic itself is translated line by line from the source.
-/

namespace WorldMonitor

/-- JS strings, modelled as their character lists. -/
abbrev Str := List Char

/-- `s.startsWith(p)` on character lists. -/
def strStartsWith : Str → Str → Bool
  | _, [] => true
  | [], _ :: _ => false
  | c :: cs, p :: ps => c == p && strStartsWith cs ps

/-- `s.endsWith(p)` on character lists. -/
def strEndsWith (s p : Str) : Bool :=
  strStartsWith s.reverse p.reverse

/-- JS `String.prototype.split` with a single-character separator:
`"".split(sep)` is `[""]`, and a separator at either end produces an
empty piece there. -/
def splitChar (sep : Char) : Str → List Str
  | [] => [[]]
  | c :: cs =>
    let rest := splitChar sep cs
    if c == sep then [] :: rest
    else
      match rest with
      | [] => [[c]]
      | r :: rs => (c :: r) :: rs

/-- JS `s.includes(pat)`. -/
def strIncludes (pat : Str) : Str → Bool
  | [] => strStartsWith [] pat
  | c :: cs => strStartsWith (c :: cs) pat || strIncludes pat cs

/-- ASCII lowering of one character (header names and the strings compared in
this code are ASCII, so this coincides with JS `toLowerCase`). -/
def charToLower (c : Char) : Char :=
  if 'A' ≤ c && c ≤ 'Z' then Char.ofNat (c.toNat + 32) else c

/-- `s.toLowerCase()` on the ASCII strings this code handles. -/
def strToLower (s : Str) : Str := s.map charToLower

/-! ## Route matching (`local-api-server.mjs` lines 15–79) -/

/-- `isBracketSegment(segment)`: `segment.startsWith('[') && segment.endsWith(']')`. -/
def isBracketSegment (segment : Str) : Bool :=
  strStartsWith segment "[".data && strEndsWith segment "]".data

/-- The catch-all test used in `matchRoute` / `routePriority`:
`part.startsWith('[...') && part.endsWith(']')`. -/
def isCatchAllSegment (part : Str) : Bool :=
  strStartsWith part "[...".data && strEndsWith part "]".data

/-- The optional-catch-all test used in `matchRoute` / `routePriority`:
`part.startsWith('[[...') && part.endsWith(']]')`. -/
def isOptionalCatchAllSegment (part : Str) : Bool :=
  strStartsWith part "[[...".data && strEndsWith part "]]".data

/-- `splitRoutePath(routePath)`: `routePath.split('/').filter(Boolean)`. -/
def splitRoutePath (routePath : Str) : List Str :=
  (splitChar '/' routePath).filter (fun s => s ≠ [])

/-- `pathname.replace(/^\/api/, '')`: strip one leading `/api`. -/
def stripLeadingApi (pathname : Str) : Str :=
  if strStartsWith pathname "/api".data then pathname.drop 4 else pathname

/-- The `while` loop of `matchRoute` together with its post-loop checks, as a
recursion on the remaining route segments and path segments.  The loop exits
when either list is exhausted; the post-loop code returns `true` when both are
empty, handles a catch-all tail when exactly one route segment remains
(`i === routeParts.length - 1`), and returns `false` otherwise. -/
def matchSegs : List Str → List Str → Bool
  | [], [] => true
  | [], _ :: _ => false
  | r :: rs, [] =>
    match rs with
    | [] =>
      if isOptionalCatchAllSegment r then true
      else if isCatchAllSegment r then false  -- `return j < pathParts.length` with `j = length`
      else false
    | _ :: _ => false
  | r :: rs, p :: ps =>
    if isOptionalCatchAllSegment r then true
    else if isCatchAllSegment r then true
    else if isBracketSegment r then matchSegs rs ps
    else if r = p then matchSegs rs ps
    else false

/-- `matchRoute(routePath, pathname)`. -/
def matchRoute (routePath pathname : Str) : Bool :=
  matchSegs (splitRoutePath routePath) (splitRoutePath (stripLeadingApi pathname))

/-- The bracket-segment matching convention, written from the specification's
description: a literal route segment must equal the corresponding request
segment, `[name]` consumes exactly one arbitrary request segment, `[...name]`
matches one or more remaining request segments, `[[...name]]` matches zero or
more remaining request segments, and when the route has no catch-all both
segment lists must be exhausted together. -/
def alignsWith : List Str → List Str → Bool
  | [], [] => true
  | [], _ :: _ => false
  | r :: rs, ps =>
    if isOptionalCatchAllSegment r then true
    else if isCatchAllSegment r then !ps.isEmpty
    else
      match ps with
      | [] => false
      | p :: ps' =>
        if isBracketSegment r then alignsWith rs ps'
        else if r = p then alignsWith rs ps'
        else false

/-- No catch-all (`[...name]` or `[[...name]]`) occurs before the final
segment of the route: the shape every route of the bracket-segment file
convention has. -/
def noNonFinalCatchAll : List Str → Bool
  | [] => true
  | [_] => true
  | r :: r' :: rs =>
    !(isOptionalCatchAllSegment r || isCatchAllSegment r) &&
      noNonFinalCatchAll (r' :: rs)

/-! ## Route priority and the route table (`local-api-server.mjs` lines 23–31, 81–107) -/

/-- `routePriority(routePath)`: the `reduce` over the split segments. -/
def routePriority (routePath : Str) : Nat :=
  (splitRoutePath routePath).foldl
    (fun score part =>
      if isOptionalCatchAllSegment part then score + 0
      else if isCatchAllSegment part then score + 1
      else if isBracketSegment part then score + 2
      else score + 10) 0

/-- The per-segment score named by the specification: 10 for a literal
segment, 2 for a `[name]` dynamic segment, 1 for a `[...name]` catch-all,
0 for a `[[...name]]` optional catch-all. -/
def segmentScore (part : Str) : Nat :=
  if isOptionalCatchAllSegment part then 0
  else if isCatchAllSegment part then 1
  else if isBracketSegment part then 2
  else 10

/-- One entry of the route table: `{ routePath, modulePath }`. -/
structure RouteEntry where
  routePath : Str
  modulePath : Str
  deriving DecidableEq, Repr

/-- The descending-priority comparison realised by the sort comparator
`(a, b) => routePriority(b.routePath) - routePriority(a.routePath)`. -/
def routeLE (a b : RouteEntry) : Prop :=
  routePriority b.routePath ≤ routePriority a.routePath

instance : DecidableRel routeLE := fun _ _ => Nat.decLe _ _

/-- `files.sort((a, b) => routePriority(b.routePath) - routePriority(a.routePath))`:
a stable comparator sort putting higher priorities first (modelled with
insertion sort, which is stable and produces a sorted permutation exactly as
`Array.prototype.sort` with this comparator does). -/
def sortRoutes (files : List RouteEntry) : List RouteEntry :=
  List.insertionSort routeLE files

/-- A directory tree, standing for the part of the filesystem under the
route root that `buildRouteTable` walks with `readdir(..., { withFileTypes: true })`. -/
inductive FsTree where
  | file (name : Str)
  | dir (name : Str) (entries : List FsTree)

/-- POSIX `path.join` of a (possibly empty) relative base and a name; with an
empty base it is the name itself, matching `path.relative(root, path.join(root, name))`. -/
def joinRel (base name : Str) : Str :=
  match base with
  | [] => name
  | _ => base ++ '/' :: name

/-- `relative.replace(/\\/g, '/')`. -/
def replaceBackslashes (s : Str) : Str :=
  s.map (fun c => if c = '\\' then '/' else c)

/-- `s.replace(/suf$/, '')` for a literal suffix: remove it when present. -/
def stripSuffix (s suf : Str) : Str :=
  if strEndsWith s suf then s.take (s.length - suf.length) else s

/-- The route path computed for a root-relative file path:
`relative.replace(/\\/g, '/').replace(/\.js$/, '').replace(/\/index$/, '')`. -/
def routePathOfRel (rel : Str) : Str :=
  stripSuffix (stripSuffix (replaceBackslashes rel) ".js".data) "/index".data

/-- The file filter of the walk: `entry.name.endsWith('.js')` and not
`entry.name.startsWith('_')`. -/
def isRouteFileName (name : Str) : Bool :=
  strEndsWith name ".js".data && !strStartsWith name "_".data

mutual

/-- One step of the recursive `walk` of `buildRouteTable`: a directory entry
recurses, a file entry pushes `{ routePath, modulePath }` when its name
qualifies.  `base` is the root-relative path of the directory being walked. -/
def walkEntry (root base : Str) : FsTree → List RouteEntry
  | FsTree.file name =>
    if isRouteFileName name then
      [{ routePath := routePathOfRel (joinRel base name),
         modulePath := joinRel root (joinRel base name) }]
    else []
  | FsTree.dir name children => walkDir root (joinRel base name) children

/-- The recursive `walk` of `buildRouteTable` over a directory's entries, in
traversal order. -/
def walkDir (root base : Str) : List FsTree → List RouteEntry
  | [] => []
  | t :: ts => walkEntry root base t ++ walkDir root base ts

end

mutual

/-- The files contributed by one tree entry to the inventory of
`allFilesWithRel`. -/
def entryFiles (base : Str) : FsTree → List (Str × Str)
  | FsTree.file name => [(joinRel base name, name)]
  | FsTree.dir name children => allFilesWithRel (joinRel base name) children

/-- All files under a directory's entries, as (root-relative path, file name)
pairs in traversal order — the specification-side inventory that
`buildRouteTable` is measured against. -/
def allFilesWithRel (base : Str) : List FsTree → List (Str × Str)
  | [] => []
  | t :: ts => entryFiles base t ++ allFilesWithRel base ts

end

/-- `buildRouteTable(root)`: `[]` when `existsSync(root)` is false (modelled by
`none`), otherwise the walked entries sorted by descending priority. -/
def buildRouteTable (root : Str) : Option (List FsTree) → List RouteEntry
  | none => []
  | some entries => sortRoutes (walkDir root [] entries)

/-! ## Module picking and dispatch (`local-api-server.mjs` lines 144–154, 196–279) -/

/-- The `apiPath` computed by `pickModule`:
`pathname.startsWith('/api') ? pathname.slice(4) || '/' : pathname`. -/
def toApiPath (pathname : Str) : Str :=
  if strStartsWith pathname "/api".data then
    match pathname.drop 4 with
    | [] => "/".data
    | sliced => sliced
  else pathname

/-- `pickModule(pathname, routes)`: the module path of the first route in the
table whose pattern matches. -/
def pickModule (pathname : Str) (routes : List RouteEntry) : Option Str :=
  (routes.find? (fun c => matchRoute c.routePath (toApiPath pathname))).map
    (fun c => c.modulePath)

/-- The observable part of a web `Response` that the dispatch logic inspects
or constructs: the status, and for the JSON bodies built by `json(...)` the
`success` / `error` fields and the `routes` count of the local-status body.
(The other context-derived body fields play no role in any claim.) -/
structure Resp where
  status : Nat
  success : Option Bool := none
  error : Option Str := none
  routesCount : Option Nat := none
  deriving DecidableEq, Repr

/-- `Response.ok`: status in the range 200–299. -/
def Resp.ok (r : Resp) : Bool :=
  decide (200 ≤ r.status) && decide (r.status < 300)

/-- `json({ error: msg }, status)`. -/
def jsonErrorResp (msg : Str) (status : Nat) : Resp :=
  { status := status, error := some msg }

/-- `handleLocalServiceStatus(context)`: a 200 JSON body with `success: true`. -/
def serviceStatusResp : Resp :=
  { status := 200, success := some true }

/-- The `/api/local-status` body: 200, `success: true`, `routes: routes.length`. -/
def localStatusResp (routesLen : Nat) : Resp :=
  { status := 200, success := some true, routesCount := some routesLen }

/-- The 404 JSON written for non-`/api/` paths. -/
def notFoundResp : Resp :=
  jsonErrorResp "Not found".data 404

/-- Outcome of `await import(pathToFileURL(modulePath).href)` (plus the
`typeof mod.default` test dispatch performs on it). -/
inductive ImportOutcome where
  | throws
  | module (defaultIsFunction : Bool)
  deriving DecidableEq

/-- Outcome of `await mod.default(request)`. -/
inductive HandlerOutcome where
  | throws
  | nonResponse
  | response (r : Resp)
  deriving DecidableEq

/-- Outcome of `proxyToCloud(requestUrl, req, context.remoteBase)`. -/
inductive CloudOutcome where
  | throws
  | response (r : Resp)
  deriving DecidableEq

/-- The effectful collaborators of one `dispatch` call, as oracles:
`existsSync`, dynamic import, handler invocation, and the cloud proxy. -/
structure DispatchEnv where
  moduleExists : Str → Bool
  importModule : Str → ImportOutcome
  invokeHandler : Str → HandlerOutcome
  cloud : CloudOutcome

/-- `tryCloudFallback`: the proxy response, or `null` when the proxy throws. -/
def tryCloudFallback (env : DispatchEnv) : Option Resp :=
  match env.cloud with
  | CloudOutcome.response r => some r
  | CloudOutcome.throws => none

/-- POSIX `path.basename`. -/
def basenameOf (p : Str) : Str :=
  (splitChar '/' p).getLastD []

/-- The handler-missing branch of `dispatch` (lines 237–241). -/
def dispatchMissing (env : DispatchEnv) : Resp :=
  match tryCloudFallback env with
  | some r => r
  | none => jsonErrorResp "Local handler missing and cloud fallback unavailable".data 502

/-- The `catch` branch of `dispatch` (lines 274–278). -/
def dispatchCaught (env : DispatchEnv) : Resp :=
  match tryCloudFallback env with
  | some r => r
  | none => jsonErrorResp "Local handler failed and cloud fallback unavailable".data 502

/-- `dispatch(requestUrl, req, routes, context)`, line by line: the built-in
status endpoints, module resolution, the invalid-module / non-Response /
failure-status cloud fallbacks, and the surrounding `try`/`catch`. -/
def dispatch (pathname : Str) (routes : List RouteEntry) (env : DispatchEnv) : Resp :=
  if pathname = "/api/service-status".data then serviceStatusResp
  else if pathname = "/api/local-status".data then localStatusResp routes.length
  else
    match pickModule pathname routes with
    | none => dispatchMissing env
    | some modulePath =>
      if env.moduleExists modulePath = false then dispatchMissing env
      else
        match env.importModule modulePath with
        | ImportOutcome.throws => dispatchCaught env
        | ImportOutcome.module isFn =>
          if isFn = false then
            match tryCloudFallback env with
            | some r => r
            | none =>
              jsonErrorResp ("Invalid handler module: ".data ++ basenameOf modulePath) 500
          else
            match env.invokeHandler modulePath with
            | HandlerOutcome.throws => dispatchCaught env
            | HandlerOutcome.nonResponse =>
              match tryCloudFallback env with
              | some r => r
              | none =>
                jsonErrorResp ("Handler returned invalid response for ".data ++ pathname) 500
            | HandlerOutcome.response resp =>
              if resp.ok = false then
                match tryCloudFallback env with
                | some c => c
                | none => resp
              else resp

/-- The request listener of `createLocalApiServer` (lines 285–292): non-`/api/`
paths get a 404 JSON without reaching `dispatch`. -/
def serveRequest (pathname : Str) (routes : List RouteEntry) (env : DispatchEnv) : Resp :=
  if strStartsWith pathname "/api/".data = false then notFoundResp
  else dispatch pathname routes env

/-! ## Header construction (`toHeaders`, lines 115–131) -/

/-- A Node request-header value: a string or an array of strings. -/
inductive NodeHeaderValue where
  | str (v : Str)
  | arr (vs : List Str)
  deriving DecidableEq

/-- `Headers.append(key, v)` (the `Headers` class stores names lowercased;
the callers below pass the lowercased key). -/
def headersAppend (hs : List (Str × Str)) (k v : Str) : List (Str × Str) :=
  hs ++ [(k, v)]

/-- `Headers.set(key, value)`: replace every value held under the (lowercased)
name with the single given one. -/
def headersSet (hs : List (Str × Str)) (k v : Str) : List (Str × Str) :=
  (hs.filter (fun p => p.1 ≠ k)) ++ [(k, v)]

/-- The body of the `Object.entries(nodeHeaders).forEach` callback of
`toHeaders`: the `host` guard, the `stripOrigin` guard, and the array/string
cases (the callback's `lowerKey` constant is written out as `strToLower kv.1`). -/
def toHeadersStep (stripOrigin : Bool) (headers : List (Str × Str))
    (kv : Str × NodeHeaderValue) : List (Str × Str) :=
  if strToLower kv.1 = "host".data then headers
  else if stripOrigin &&
      (strToLower kv.1 = "origin".data || strToLower kv.1 = "referer".data ||
        strStartsWith (strToLower kv.1) "sec-fetch-".data) then headers
  else
    match kv.2 with
    | NodeHeaderValue.arr vs =>
      vs.foldl (fun h v => headersAppend h (strToLower kv.1) v) headers
    | NodeHeaderValue.str v => headersSet headers (strToLower kv.1) v

/-- `toHeaders(nodeHeaders, options)`: the fold of the callback over the
incoming header entries, starting from `new Headers()`. -/
def toHeaders (nodeHeaders : List (Str × NodeHeaderValue)) (stripOrigin : Bool) :
    List (Str × Str) :=
  nodeHeaders.foldl (toHeadersStep stripOrigin) []

/-- A lowercased header name the sidecar refuses to forward: `host`, and under
`stripOrigin` also `origin`, `referer`, and every `sec-fetch-*` name. -/
def isStrippedHeaderName (lowerKey : Str) : Bool :=
  lowerKey = "host".data || lowerKey = "origin".data || lowerKey = "referer".data ||
    strStartsWith lowerKey "sec-fetch-".data

/-- The headers `proxyToCloud` sends (line 139): `toHeaders(req.headers, { stripOrigin: true })`. -/
def proxyHeaders (nodeHeaders : List (Str × NodeHeaderValue)) : List (Str × Str) :=
  toHeaders nodeHeaders true

/-- The headers of the `Request` handed to a local handler (line 255):
`toHeaders(req.headers, { stripOrigin: true })`. -/
def handlerRequestHeaders (nodeHeaders : List (Str × NodeHeaderValue)) : List (Str × Str) :=
  toHeaders nodeHeaders true

/-! ## Humanity counters (`src/services/humanity-counters.ts`) -/

/-- `CounterMetric`, with the numeric fields as rationals (JS numbers; every
value in this file is exactly representable and the claims are about the exact
arithmetic the code writes down). -/
structure CounterMetric where
  id : String
  label : String
  annualTotal : ℚ
  source : String
  perSecondRate : ℚ
  icon : String
  formatPrecision : Nat

/-- `const SECONDS_PER_YEAR = 31_536_000`. -/
def SECONDS_PER_YEAR : ℚ := 31536000

def birthsMetric : CounterMetric :=
  { id := "births", label := "Babies Born Today", annualTotal := 135600000,
    source := "UN Population Division",
    perSecondRate := 135600000 / SECONDS_PER_YEAR, icon := "baby", formatPrecision := 0 }

def treesMetric : CounterMetric :=
  { id := "trees", label := "Trees Planted Today", annualTotal := 15300000000,
    source := "Global Forest Watch / FAO",
    perSecondRate := 15300000000 / SECONDS_PER_YEAR, icon := "tree", formatPrecision := 0 }

def vaccinesMetric : CounterMetric :=
  { id := "vaccines", label := "Vaccines Administered Today", annualTotal := 4600000000,
    source := "WHO / UNICEF",
    perSecondRate := 4600000000 / SECONDS_PER_YEAR, icon := "syringe", formatPrecision := 0 }

def graduatesMetric : CounterMetric :=
  { id := "graduates", label := "Students Graduated Today", annualTotal := 70000000,
    source := "UNESCO Institute for Statistics",
    perSecondRate := 70000000 / SECONDS_PER_YEAR, icon := "graduation cap", formatPrecision := 0 }

def booksMetric : CounterMetric :=
  { id := "books", label := "Books Published Today", annualTotal := 2200000,
    source := "UNESCO / Bowker",
    perSecondRate := 2200000 / SECONDS_PER_YEAR, icon := "books", formatPrecision := 0 }

def renewableMetric : CounterMetric :=
  { id := "renewable", label := "Renewable MW Installed Today", annualTotal := 510000,
    source := "IRENA / IEA",
    perSecondRate := 510000 / SECONDS_PER_YEAR, icon := "lightning", formatPrecision := 2 }

/-- `COUNTER_METRICS`. -/
def COUNTER_METRICS : List CounterMetric :=
  [birthsMetric, treesMetric, vaccinesMetric, graduatesMetric, booksMetric, renewableMetric]

/-- Milliseconds per JS `Date` day (JS time has no leap seconds). -/
def msPerDay : Nat := 86400000

/-- `Date.UTC(now.getUTCFullYear(), now.getUTCMonth(), now.getUTCDate())`:
the most recent UTC midnight at or before `nowMs`; with every JS day exactly
86,400,000 ms this is `nowMs` truncated to a whole day. -/
def midnightUTCms (nowMs : Nat) : Nat :=
  (nowMs / msPerDay) * msPerDay

/-- `(now.getTime() - midnightUTC.getTime()) / 1000`. -/
def elapsedSecondsSinceMidnightUTC (nowMs : Nat) : ℚ :=
  ((nowMs : ℚ) - (midnightUTCms nowMs : ℚ)) / 1000

/-- `getCounterValue(metric)` at the call moment `nowMs` (epoch milliseconds). -/
def getCounterValue (metric : CounterMetric) (nowMs : Nat) : ℚ :=
  metric.perSecondRate * elapsedSecondsSinceMidnightUTC nowMs

/-! ## Desktop runtime detection and the fetch patch -/

/-- The window facts `detectDesktopRuntime` probes. -/
structure RuntimeProbe where
  hasTauriGlobals : Bool
  userAgent : Str
  locationProtocol : Str
  locationHost : Str
  locationOrigin : Str

/-- `detectDesktopRuntime(probe)`. -/
def detectDesktopRuntime (p : RuntimeProbe) : Bool :=
  let tauriInUserAgent := strIncludes "Tauri".data p.userAgent
  let secureLocalhostOrigin :=
    p.locationProtocol == "https:".data &&
      (p.locationHost == "localhost".data ||
        strStartsWith p.locationHost "localhost:".data ||
        p.locationHost == "127.0.0.1".data ||
        strStartsWith p.locationHost "127.0.0.1:".data)
  let tauriLikeLocation :=
    p.locationProtocol == "tauri:".data ||
    p.locationProtocol == "asset:".data ||
    p.locationHost == "tauri.localhost".data ||
    strEndsWith p.locationHost ".tauri.localhost".data ||
    strStartsWith p.locationOrigin "tauri://".data ||
    secureLocalhostOrigin
  p.hasTauriGlobals || tauriInUserAgent || tauriLikeLocation

/-- `isDesktopRuntime()`: the `VITE_DESKTOP_RUNTIME === '1'` force flag, the
`typeof window === 'undefined'` guard, then the probe. -/
def isDesktopRuntime (forceDesktopRuntime : Bool) (window : Option RuntimeProbe) : Bool :=
  if forceDesktopRuntime then true
  else
    match window with
    | none => false
    | some p => detectDesktopRuntime p

/-- The window state `installRuntimeFetchPatch` reads: the probe and the
`__wmFetchPatched` marker. -/
structure WindowPatchState where
  probe : RuntimeProbe
  wmFetchPatched : Bool

/-- Whether `installRuntimeFetchPatch` replaces `window.fetch`: the guard
`if (!isDesktopRuntime() || typeof window === 'undefined' || __wmFetchPatched) return`. -/
def installsFetchPatch (forceDesktopRuntime : Bool) (window : Option WindowPatchState) : Bool :=
  match window with
  | none => false
  | some w =>
    !(!(isDesktopRuntime forceDesktopRuntime (some w.probe)) || w.wmFetchPatched)

/-- The `pathname` / `search` of a parsed URL. -/
structure URLParts where
  pathname : Str
  search : Str
  deriving DecidableEq

/-- A `RequestInfo | URL` argument to the patched fetch.  `new URL(...)`
parsing of an absolute string (or of a `Request`'s url) is an external API,
carried as its `Option URLParts` outcome. -/
inductive RequestInput where
  | str (s : Str) (parsed : Option URLParts)
  | url (u : URLParts)
  | request (parsed : Option URLParts)
  deriving DecidableEq

/-- `getApiTargetFromRequestInput(input)`. -/
def getApiTargetFromRequestInput : RequestInput → Option Str
  | RequestInput.str s parsed =>
    if strStartsWith s "/".data then some s
    else
      match parsed with
      | some u => some (u.pathname ++ u.search)
      | none => none
  | RequestInput.url u => some (u.pathname ++ u.search)
  | RequestInput.request parsed =>
    match parsed with
    | some u => some (u.pathname ++ u.search)
    | none => none

/-- What the patched `window.fetch` does with a request: hand it to the
native fetch untouched, or run the local-sidecar-then-cloud procedure on the
two URLs built from the target. -/
inductive FetchAction (A : Type) where
  | native (input : RequestInput) (init : A)
  | localSidecar (localUrl remoteUrl : Str) (init : A)
  deriving DecidableEq

/-- The routing decision of the function installed over `window.fetch`
(lines 169–200): requests whose resolved target does not start with `/api/`
go to the native fetch with `input` and `init` unchanged; the rest are
redirected to `${localBase}${target}` with `${remoteBase}${target}` as the
fallback. -/
def patchedFetchAction {A : Type} (localBase remoteBase : Str)
    (input : RequestInput) (init : A) : FetchAction A :=
  match getApiTargetFromRequestInput input with
  | some target =>
    if strStartsWith target "/api/".data then
      FetchAction.localSidecar (localBase ++ target) (remoteBase ++ target) init
    else FetchAction.native input init
  | none => FetchAction.native input init

/-! ## Theorems -/

theorem noNonFinalCatchAll_tail {r : Str} {rs : List Str}
    (h : noNonFinalCatchAll (r :: rs) = true) : noNonFinalCatchAll rs = true := by
  cases rs with
  | nil => rfl
  | cons r' rs' =>
    simp only [noNonFinalCatchAll, Bool.and_eq_true] at h
    exact h.2

theorem noNonFinalCatchAll_head {r r' : Str} {rs : List Str}
    (h : noNonFinalCatchAll (r :: r' :: rs) = true) :
    isOptionalCatchAllSegment r = false ∧ isCatchAllSegment r = false := by
  simp only [noNonFinalCatchAll, Bool.and_eq_true, Bool.not_eq_true',
    Bool.or_eq_false_iff] at h
  exact h.1

theorem matchSegs_eq_alignsWith :
    ∀ (rs ps : List Str), noNonFinalCatchAll rs = true →
      matchSegs rs ps = alignsWith rs ps := by
  intro rs
  induction rs with
  | nil => intro ps _; cases ps <;> rfl
  | cons r rs ih =>
    intro ps h
    cases ps with
    | nil =>
      cases rs with
      | nil => simp [matchSegs, alignsWith]
      | cons r' rs' =>
        obtain ⟨h1, h2⟩ := noNonFinalCatchAll_head h
        simp [matchSegs, alignsWith, h1, h2]
    | cons p ps' =>
      have htail := noNonFinalCatchAll_tail h
      simp only [matchSegs, alignsWith, List.isEmpty_cons, Bool.not_false]
      split_ifs <;> simp [ih ps' htail]

/-- C1: for every route path shaped by the bracket-segment convention (catch-alls
only in final position, the only shape whose behaviour the convention describes)
and every request pathname, `matchRoute` returns true exactly when the route
segments align with the (api-prefix-stripped) request segments: a literal route
segment must equal the corresponding request segment, `[name]` matches exactly
one arbitrary segment, `[...name]` matches one or more remaining segments,
`[[...name]]` matches zero or more remaining segments, and when the route has no
catch-all both segment lists are exhausted together. -/
theorem matchRoute_bracket_convention (routePath pathname : Str)
    (h : noNonFinalCatchAll (splitRoutePath routePath) = true) :
    matchRoute routePath pathname =
      alignsWith (splitRoutePath routePath)
        (splitRoutePath (stripLeadingApi pathname)) :=
  matchSegs_eq_alignsWith _ _ h

theorem matchRoute_bracket_convention_witness :
    noNonFinalCatchAll (splitRoutePath "docs/[...slug]".data) = true ∧
      matchRoute "docs/[...slug]".data "/docs/a/b".data =
        alignsWith (splitRoutePath "docs/[...slug]".data)
          (splitRoutePath (stripLeadingApi "/docs/a/b".data)) :=
  ⟨by decide, matchRoute_bracket_convention _ _ (by decide)⟩

theorem priority_foldl_eq_sum :
    ∀ (segs : List Str) (n : Nat),
      segs.foldl
        (fun score part =>
          if isOptionalCatchAllSegment part then score + 0
          else if isCatchAllSegment part then score + 1
          else if isBracketSegment part then score + 2
          else score + 10) n
        = n + (segs.map segmentScore).sum := by
  intro segs
  induction segs with
  | nil => intro n; simp
  | cons a l ih =>
    intro n
    simp only [List.foldl_cons, List.map_cons, List.sum_cons, ih]
    unfold segmentScore
    split_ifs <;> omega

theorem buildRouteTable_pairwise (root : Str) (fs : Option (List FsTree)) :
    (buildRouteTable root fs).Pairwise routeLE := by
  cases fs with
  | none => simp [buildRouteTable]
  | some entries =>
    haveI : IsTotal RouteEntry routeLE := ⟨fun a b => Nat.le_total _ _⟩
    haveI : IsTrans RouteEntry routeLE := ⟨fun _ _ _ hab hbc => le_trans hbc hab⟩
    exact List.sorted_insertionSort routeLE _

theorem find?_eq_of_strict_max {P : RouteEntry → Bool} :
    ∀ l : List RouteEntry, l.Pairwise routeLE →
      ∀ e ∈ l, P e = true →
        (∀ f ∈ l, P f = true →
          f = e ∨ routePriority f.routePath < routePriority e.routePath) →
        l.find? P = some e := by
  intro l
  induction l with
  | nil => intro _ e he; exact absurd he (List.not_mem_nil e)
  | cons a l ih =>
    intro hp e he hPe hmax
    by_cases hPa : P a = true
    · rw [List.find?_cons_of_pos _ hPa]
      rcases hmax a (List.mem_cons_self a l) hPa with heq | hlt
      · rw [heq]
      · exfalso
        rcases List.mem_cons.1 he with rfl | hel
        · omega
        · have hle : routeLE a e := (List.pairwise_cons.1 hp).1 e hel
          unfold routeLE at hle
          omega
    · rw [List.find?_cons_of_neg _ (by simpa using hPa)]
      have hel : e ∈ l := by
        rcases List.mem_cons.1 he with rfl | h
        · exact absurd hPe hPa
        · exact h
      exact ih (List.pairwise_cons.1 hp).2 e hel hPe
        (fun f hf hPf => hmax f (List.mem_cons_of_mem a hf) hPf)

/-- C2: a route's priority is the sum over its segments of 10 for a literal
segment, 2 for a `[name]` segment, 1 for a `[...name]` catch-all and 0 for a
`[[...name]]` optional catch-all; `buildRouteTable` returns its entries sorted
in non-increasing priority; and because `pickModule` scans the table in order
and returns the module of the first matching route, whenever a matching entry
has strictly greater priority than every other matching entry, that entry's
module is selected. -/
theorem routeResolution_priority_ordering :
    (∀ routePath : Str,
        routePriority routePath = ((splitRoutePath routePath).map segmentScore).sum)
    ∧ (∀ (root : Str) (fs : Option (List FsTree)),
        (buildRouteTable root fs).Pairwise routeLE)
    ∧ (∀ (root : Str) (entries : List FsTree) (pathname : Str) (e : RouteEntry),
        e ∈ buildRouteTable root (some entries) →
        matchRoute e.routePath (toApiPath pathname) = true →
        (∀ f ∈ buildRouteTable root (some entries),
          matchRoute f.routePath (toApiPath pathname) = true →
            f = e ∨ routePriority f.routePath < routePriority e.routePath) →
        pickModule pathname (buildRouteTable root (some entries)) = some e.modulePath) := by
  refine ⟨fun routePath => by rw [routePriority, priority_foldl_eq_sum, Nat.zero_add],
    buildRouteTable_pairwise, ?_⟩
  intro root entries pathname e he hmatch hmax
  unfold pickModule
  rw [find?_eq_of_strict_max (buildRouteTable root (some entries))
    (buildRouteTable_pairwise root (some entries)) e he hmatch hmax]
  rfl

theorem routeResolution_priority_ordering_witness :
    ((RouteEntry.mk "news/[id]".data "/app/api/news/[id].js".data ∈
        buildRouteTable "/app/api".data
          (some [FsTree.dir "news".data
              [FsTree.file "[id].js".data, FsTree.file "[...rest].js".data]]))
      ∧ matchRoute "news/[id]".data (toApiPath "/api/news/42".data) = true)
    ∧ pickModule "/api/news/42".data
        (buildRouteTable "/app/api".data
          (some [FsTree.dir "news".data
              [FsTree.file "[id].js".data, FsTree.file "[...rest].js".data]]))
        = some "/app/api/news/[id].js".data :=
  ⟨⟨by decide, by decide⟩,
    routeResolution_priority_ordering.2.2 _ _ _
      (RouteEntry.mk "news/[id]".data "/app/api/news/[id].js".data)
      (by decide) (by decide) (by decide)⟩

mutual

theorem walkEntry_eq_filter_map (root base : Str) :
    ∀ t : FsTree,
      walkEntry root base t =
        ((entryFiles base t).filter (fun f => isRouteFileName f.2)).map
          (fun f => { routePath := routePathOfRel f.1, modulePath := joinRel root f.1 })
  | FsTree.file name => by
    by_cases h : isRouteFileName name = true
    · simp [walkEntry, entryFiles, h]
    · simp [walkEntry, entryFiles, h]
  | FsTree.dir name children => by
    simp only [walkEntry, entryFiles]
    exact walkDir_eq_filter_map root (joinRel base name) children

theorem walkDir_eq_filter_map (root base : Str) :
    ∀ ts : List FsTree,
      walkDir root base ts =
        ((allFilesWithRel base ts).filter (fun f => isRouteFileName f.2)).map
          (fun f => { routePath := routePathOfRel f.1, modulePath := joinRel root f.1 })
  | [] => rfl
  | t :: ts => by
    simp only [walkDir, allFilesWithRel, List.filter_append, List.map_append]
    rw [walkEntry_eq_filter_map root base t, walkDir_eq_filter_map root base ts]

end

/-- C6: `buildRouteTable(root)` is empty when the root does not exist, and
otherwise holds exactly one entry per file under the root (recursively) whose
name ends in `.js` and does not start with an underscore — the table is a
permutation (it is subsequently sorted) of the list with one entry per such
file, whose routePath is the root-relative path with backslashes replaced by
slashes, the trailing `.js` removed, and a trailing `/index` removed. -/
theorem buildRouteTable_file_convention :
    (∀ root : Str, buildRouteTable root none = [])
    ∧ (∀ (root : Str) (entries : List FsTree),
        (buildRouteTable root (some entries)).Perm
          (((allFilesWithRel [] entries).filter (fun f => isRouteFileName f.2)).map
            (fun f => { routePath := routePathOfRel f.1, modulePath := joinRel root f.1 }))) := by
  refine ⟨fun _ => rfl, fun root entries => ?_⟩
  simp only [buildRouteTable, sortRoutes]
  rw [walkDir_eq_filter_map root [] entries]
  exact List.perm_insertionSort routeLE _

/-- C3: when the matched local handler returns a `Response` whose status is not
2xx (`response.ok` false), `dispatch` attempts the cloud proxy; a successful
proxy response is returned to the client, and when the proxy throws, the local
handler's failure response is returned unchanged. -/
theorem dispatch_cloud_fallback_on_failure_status
    (pathname : Str) (routes : List RouteEntry) (env : DispatchEnv)
    (modulePath : Str) (resp : Resp)
    (hsvc : pathname ≠ "/api/service-status".data)
    (hloc : pathname ≠ "/api/local-status".data)
    (hpick : pickModule pathname routes = some modulePath)
    (hex : env.moduleExists modulePath = true)
    (himp : env.importModule modulePath = ImportOutcome.module true)
    (hinv : env.invokeHandler modulePath = HandlerOutcome.response resp)
    (hnok : resp.ok = false) :
    (∀ c, env.cloud = CloudOutcome.response c → dispatch pathname routes env = c)
    ∧ (env.cloud = CloudOutcome.throws → dispatch pathname routes env = resp) := by
  constructor
  · intro c hc
    simp [dispatch, hsvc, hloc, hpick, hex, himp, hinv, hnok, tryCloudFallback, hc]
  · intro hc
    simp [dispatch, hsvc, hloc, hpick, hex, himp, hinv, hnok, tryCloudFallback, hc]

theorem dispatch_cloud_fallback_on_failure_status_witness :
    (pickModule "/api/ping".data [RouteEntry.mk "ping".data "/app/api/ping.js".data]
        = some "/app/api/ping.js".data
      ∧ Resp.ok { status := 503 } = false)
    ∧ dispatch "/api/ping".data [RouteEntry.mk "ping".data "/app/api/ping.js".data]
        { moduleExists := fun _ => true,
          importModule := fun _ => ImportOutcome.module true,
          invokeHandler := fun _ => HandlerOutcome.response { status := 503 },
          cloud := CloudOutcome.response { status := 201 } }
        = { status := 201 } :=
  ⟨⟨by decide, by decide⟩,
    (dispatch_cloud_fallback_on_failure_status "/api/ping".data
      [RouteEntry.mk "ping".data "/app/api/ping.js".data]
      { moduleExists := fun _ => true,
        importModule := fun _ => ImportOutcome.module true,
        invokeHandler := fun _ => HandlerOutcome.response { status := 503 },
        cloud := CloudOutcome.response { status := 201 } }
      "/app/api/ping.js".data { status := 503 }
      (by decide) (by decide) (by decide) rfl rfl rfl (by decide)).1 _ rfl⟩

/-- C4: when no route matches or the matched module file does not exist on
disk, `dispatch` proxies to the cloud remote base (returning that response);
and when the proxy throws it returns the 502 JSON error body. -/
theorem dispatch_cloud_fallback_on_missing_handler
    (pathname : Str) (routes : List RouteEntry) (env : DispatchEnv)
    (hsvc : pathname ≠ "/api/service-status".data)
    (hloc : pathname ≠ "/api/local-status".data)
    (hmiss : pickModule pathname routes = none
      ∨ ∃ modulePath, pickModule pathname routes = some modulePath
          ∧ env.moduleExists modulePath = false) :
    (∀ c, env.cloud = CloudOutcome.response c → dispatch pathname routes env = c)
    ∧ (env.cloud = CloudOutcome.throws →
        dispatch pathname routes env =
          jsonErrorResp "Local handler missing and cloud fallback unavailable".data 502) := by
  constructor
  · intro c hc
    rcases hmiss with hnone | ⟨modulePath, hsome, hnex⟩
    · simp [dispatch, hsvc, hloc, hnone, dispatchMissing, tryCloudFallback, hc]
    · simp [dispatch, hsvc, hloc, hsome, hnex, dispatchMissing, tryCloudFallback, hc]
  · intro hc
    rcases hmiss with hnone | ⟨modulePath, hsome, hnex⟩
    · simp [dispatch, hsvc, hloc, hnone, dispatchMissing, tryCloudFallback, hc]
    · simp [dispatch, hsvc, hloc, hsome, hnex, dispatchMissing, tryCloudFallback, hc]

theorem dispatch_cloud_fallback_on_missing_handler_witness :
    pickModule "/api/unknown".data [] = none
    ∧ dispatch "/api/unknown".data []
        { moduleExists := fun _ => false,
          importModule := fun _ => ImportOutcome.throws,
          invokeHandler := fun _ => HandlerOutcome.throws,
          cloud := CloudOutcome.throws }
        = jsonErrorResp "Local handler missing and cloud fallback unavailable".data 502 :=
  ⟨by decide,
    (dispatch_cloud_fallback_on_missing_handler _ _ _
      (by decide) (by decide) (Or.inl (by decide))).2 rfl⟩

/-- C5: when the matched module's default export is not a function, or the
handler returns a non-`Response` value, or the handler throws, `dispatch`
attempts the cloud proxy and returns its response when available; with the
cloud unavailable the invalid-module and non-Response cases produce a 500 JSON
error and the thrown-handler case a 502 JSON error. -/
theorem dispatch_cloud_fallback_on_invalid_handler
    (pathname : Str) (routes : List RouteEntry) (env : DispatchEnv) (modulePath : Str)
    (hsvc : pathname ≠ "/api/service-status".data)
    (hloc : pathname ≠ "/api/local-status".data)
    (hpick : pickModule pathname routes = some modulePath)
    (hex : env.moduleExists modulePath = true) :
    (env.importModule modulePath = ImportOutcome.module false →
      (∀ c, env.cloud = CloudOutcome.response c → dispatch pathname routes env = c)
      ∧ (env.cloud = CloudOutcome.throws →
          dispatch pathname routes env =
            jsonErrorResp ("Invalid handler module: ".data ++ basenameOf modulePath) 500))
    ∧ (env.importModule modulePath = ImportOutcome.module true →
        env.invokeHandler modulePath = HandlerOutcome.nonResponse →
        (∀ c, env.cloud = CloudOutcome.response c → dispatch pathname routes env = c)
        ∧ (env.cloud = CloudOutcome.throws →
            dispatch pathname routes env =
              jsonErrorResp ("Handler returned invalid response for ".data ++ pathname) 500))
    ∧ (env.importModule modulePath = ImportOutcome.module true →
        env.invokeHandler modulePath = HandlerOutcome.throws →
        (∀ c, env.cloud = CloudOutcome.response c → dispatch pathname routes env = c)
        ∧ (env.cloud = CloudOutcome.throws →
            dispatch pathname routes env =
              jsonErrorResp "Local handler failed and cloud fallback unavailable".data 502)) := by
  refine ⟨fun himp => ⟨?_, ?_⟩, fun himp hinv => ⟨?_, ?_⟩, fun himp hinv => ⟨?_, ?_⟩⟩
  · intro c hc
    simp [dispatch, hsvc, hloc, hpick, hex, himp, tryCloudFallback, hc]
  · intro hc
    simp [dispatch, hsvc, hloc, hpick, hex, himp, tryCloudFallback, hc]
  · intro c hc
    simp [dispatch, hsvc, hloc, hpick, hex, himp, hinv, tryCloudFallback, hc]
  · intro hc
    simp [dispatch, hsvc, hloc, hpick, hex, himp, hinv, tryCloudFallback, hc]
  · intro c hc
    simp [dispatch, hsvc, hloc, hpick, hex, himp, hinv, tryCloudFallback, dispatchCaught, hc]
  · intro hc
    simp [dispatch, hsvc, hloc, hpick, hex, himp, hinv, tryCloudFallback, dispatchCaught, hc]

theorem dispatch_cloud_fallback_on_invalid_handler_witness :
    (pickModule "/api/ping".data [RouteEntry.mk "ping".data "/app/api/ping.js".data]
        = some "/app/api/ping.js".data)
    ∧ dispatch "/api/ping".data [RouteEntry.mk "ping".data "/app/api/ping.js".data]
        { moduleExists := fun _ => true,
          importModule := fun _ => ImportOutcome.module false,
          invokeHandler := fun _ => HandlerOutcome.throws,
          cloud := CloudOutcome.throws }
        = jsonErrorResp ("Invalid handler module: ".data ++ basenameOf "/app/api/ping.js".data) 500 :=
  ⟨by decide,
    ((dispatch_cloud_fallback_on_invalid_handler _ _ _ _
      (by decide) (by decide) (by decide) rfl).1 rfl).2 rfl⟩

/-- C9: the request listener rejects every pathname not starting with `/api/`
with a constant 404 JSON (the same value for every route table and every
environment, so neither the table nor the cloud is consulted); and the two
built-in endpoints are answered locally with 200 and `success: true` for every
environment — `/api/service-status` yields a constant body, and
`/api/local-status` depends on the route table only through its length — so
they are never matched against the table and never proxied. -/
theorem sidecar_public_interface_boundaries :
    (∀ (pathname : Str) (routes : List RouteEntry) (env : DispatchEnv),
        strStartsWith pathname "/api/".data = false →
        serveRequest pathname routes env = notFoundResp)
    ∧ notFoundResp.status = 404
    ∧ (∀ (routes : List RouteEntry) (env : DispatchEnv),
        serveRequest "/api/service-status".data routes env = serviceStatusResp)
    ∧ serviceStatusResp.status = 200 ∧ serviceStatusResp.success = some true
    ∧ (∀ (routes : List RouteEntry) (env : DispatchEnv),
        serveRequest "/api/local-status".data routes env = localStatusResp routes.length)
    ∧ (∀ n, (localStatusResp n).status = 200 ∧ (localStatusResp n).success = some true) := by
  refine ⟨?_, rfl, ?_, rfl, rfl, ?_, fun n => ⟨rfl, rfl⟩⟩
  · intro pathname routes env h
    unfold serveRequest
    rw [if_pos h]
  · intro routes env
    unfold serveRequest
    rw [if_neg (by decide)]
    unfold dispatch
    rw [if_pos rfl]
  · intro routes env
    unfold serveRequest
    rw [if_neg (by decide)]
    unfold dispatch
    rw [if_neg (by decide), if_pos rfl]

theorem sidecar_public_interface_boundaries_witness :
    strStartsWith "/healthz".data "/api/".data = false
    ∧ serveRequest "/healthz".data [RouteEntry.mk "healthz".data "/app/api/healthz.js".data]
        { moduleExists := fun _ => true,
          importModule := fun _ => ImportOutcome.module true,
          invokeHandler := fun _ => HandlerOutcome.response { status := 200 },
          cloud := CloudOutcome.throws }
        = notFoundResp :=
  ⟨by decide,
    sidecar_public_interface_boundaries.1 "/healthz".data
      [RouteEntry.mk "healthz".data "/app/api/healthz.js".data]
      { moduleExists := fun _ => true,
        importModule := fun _ => ImportOutcome.module true,
        invokeHandler := fun _ => HandlerOutcome.response { status := 200 },
        cloud := CloudOutcome.throws }
      (by decide)⟩

theorem elapsedSecondsSinceMidnightUTC_nonneg (nowMs : Nat) :
    0 ≤ elapsedSecondsSinceMidnightUTC nowMs := by
  unfold elapsedSecondsSinceMidnightUTC
  apply div_nonneg _ (by norm_num)
  rw [sub_nonneg]
  have h : midnightUTCms nowMs ≤ nowMs := Nat.div_mul_le_self nowMs msPerDay
  exact_mod_cast h

/-- C7: for every metric in `COUNTER_METRICS`, its `perSecondRate` equals its
`annualTotal` divided by 31,536,000, and `getCounterValue` returns the rate
multiplied by the seconds elapsed since the most recent midnight UTC at the
moment of the call — hence a non-negative value. -/
theorem getCounterValue_wall_clock_math (m : CounterMetric)
    (hm : m ∈ COUNTER_METRICS) (nowMs : Nat) :
    m.perSecondRate = m.annualTotal / 31536000
    ∧ getCounterValue m nowMs = m.perSecondRate * elapsedSecondsSinceMidnightUTC nowMs
    ∧ 0 ≤ getCounterValue m nowMs := by
  have hel := elapsedSecondsSinceMidnightUTC_nonneg nowMs
  fin_cases hm <;> refine ⟨rfl, rfl, mul_nonneg ?_ hel⟩ <;>
    norm_num [birthsMetric, treesMetric, vaccinesMetric, graduatesMetric,
      booksMetric, renewableMetric, SECONDS_PER_YEAR]

theorem getCounterValue_wall_clock_math_witness :
    birthsMetric ∈ COUNTER_METRICS
    ∧ (birthsMetric.perSecondRate = birthsMetric.annualTotal / 31536000
      ∧ getCounterValue birthsMetric 86400500 =
          birthsMetric.perSecondRate * elapsedSecondsSinceMidnightUTC 86400500
      ∧ 0 ≤ getCounterValue birthsMetric 86400500) :=
  ⟨by simp [COUNTER_METRICS],
    getCounterValue_wall_clock_math birthsMetric (by simp [COUNTER_METRICS]) 86400500⟩

/-- C8: `installRuntimeFetchPatch` replaces `window.fetch` exactly when a window
exists, the desktop runtime is detected, and the `__wmFetchPatched` marker is
not yet set; and the installed fetch redirects to the local sidecar base exactly
those requests whose resolved target path starts with `/api/`, while every
other request goes to the native fetch with `input` and `init` unchanged. -/
theorem runtime_fetch_patch_desktop_only :
    (∀ (forceDesktopRuntime : Bool) (w : Option WindowPatchState),
        installsFetchPatch forceDesktopRuntime w = true ↔
          ∃ s, w = some s
            ∧ isDesktopRuntime forceDesktopRuntime (some s.probe) = true
            ∧ s.wmFetchPatched = false)
    ∧ (∀ (A : Type) (localBase remoteBase : Str) (input : RequestInput) (init : A)
        (target : Str),
        getApiTargetFromRequestInput input = some target →
        strStartsWith target "/api/".data = true →
        patchedFetchAction localBase remoteBase input init =
          FetchAction.localSidecar (localBase ++ target) (remoteBase ++ target) init)
    ∧ (∀ (A : Type) (localBase remoteBase : Str) (input : RequestInput) (init : A),
        (∀ target, getApiTargetFromRequestInput input = some target →
          strStartsWith target "/api/".data = false) →
        patchedFetchAction localBase remoteBase input init =
          FetchAction.native input init) := by
  refine ⟨?_, ?_, ?_⟩
  · intro forceDesktopRuntime w
    cases w with
    | none => simp [installsFetchPatch]
    | some s =>
      constructor
      · intro h
        simp only [installsFetchPatch, Bool.not_eq_true', Bool.or_eq_false_iff,
          Bool.not_eq_false, Bool.not_eq_false'] at h
        exact ⟨s, rfl, h.1, h.2⟩
      · rintro ⟨s', hw, hd, hp⟩
        cases Option.some.injEq s s' ▸ hw
        simp [installsFetchPatch, hd, hp]
  · intro A localBase remoteBase input init target htarget hapi
    unfold patchedFetchAction
    rw [htarget]
    simp [hapi]
  · intro A localBase remoteBase input init hno
    unfold patchedFetchAction
    cases htarget : getApiTargetFromRequestInput input with
    | none => rfl
    | some target => simp [hno target htarget]

theorem runtime_fetch_patch_desktop_only_witness :
    (getApiTargetFromRequestInput (RequestInput.str "/api/news".data none)
        = some "/api/news".data
      ∧ strStartsWith "/api/news".data "/api/".data = true)
    ∧ patchedFetchAction "http://127.0.0.1:46123".data "https://worldmonitor.app".data
        (RequestInput.str "/api/news".data none) (0 : Nat) =
        FetchAction.localSidecar "http://127.0.0.1:46123/api/news".data
          "https://worldmonitor.app/api/news".data 0 :=
  ⟨⟨by decide, by decide⟩,
    runtime_fetch_patch_desktop_only.2.1 Nat "http://127.0.0.1:46123".data
      "https://worldmonitor.app".data (RequestInput.str "/api/news".data none) 0
      "/api/news".data (by decide) (by decide)⟩

theorem mem_arrAppendFold (k : Str) :
    ∀ (vs : List Str) (acc : List (Str × Str)) (p : Str × Str),
      p ∈ vs.foldl (fun h v => headersAppend h k v) acc ↔
        p ∈ acc ∨ (p.1 = k ∧ p.2 ∈ vs) := by
  intro vs
  induction vs with
  | nil => intro acc p; simp
  | cons v vs ih =>
    intro acc p
    rw [List.foldl_cons, ih]
    unfold headersAppend
    constructor
    · rintro (hp | hp)
      · rcases List.mem_append.1 hp with hp | hp
        · exact Or.inl hp
        · rcases List.mem_singleton.1 hp with rfl
          exact Or.inr ⟨rfl, List.mem_cons_self v vs⟩
      · exact Or.inr ⟨hp.1, List.mem_cons_of_mem v hp.2⟩
    · rintro (hp | ⟨hk, hv⟩)
      · exact Or.inl (List.mem_append_left _ hp)
      · rcases List.mem_cons.1 hv with rfl | hv
        · refine Or.inl (List.mem_append_right _ ?_)
          rcases p with ⟨p1, p2⟩
          simp only at hk
          rw [hk]
          exact List.mem_singleton.2 rfl
        · exact Or.inr ⟨hk, hv⟩

theorem mem_headersSet (hs : List (Str × Str)) (k v : Str) (p : Str × Str) :
    p ∈ headersSet hs k v ↔ (p ∈ hs ∧ p.1 ≠ k) ∨ p = (k, v) := by
  unfold headersSet
  rw [List.mem_append, List.mem_filter, List.mem_singleton]
  simp

theorem toHeadersStep_stripped_invariant (acc : List (Str × Str))
    (kv : Str × NodeHeaderValue)
    (hacc : ∀ p ∈ acc, isStrippedHeaderName p.1 = false) :
    ∀ p ∈ toHeadersStep true acc kv, isStrippedHeaderName p.1 = false := by
  intro p hp
  unfold toHeadersStep at hp
  by_cases h1 : strToLower kv.1 = "host".data
  · rw [if_pos h1] at hp
    exact hacc p hp
  · rw [if_neg h1] at hp
    by_cases h2 : ((strToLower kv.1 = "origin".data ∨ strToLower kv.1 = "referer".data) ∨
        strStartsWith (strToLower kv.1) "sec-fetch-".data = true)
    · rw [if_pos (by simpa using h2)] at hp
      exact hacc p hp
    · rw [if_neg (by simpa using h2)] at hp
      have hkey : isStrippedHeaderName (strToLower kv.1) = false := by
        push_neg at h2
        simp [isStrippedHeaderName, h1, h2.1.1, h2.1.2, h2.2]
      cases hv : kv.2 with
      | arr vs =>
        rw [hv] at hp
        rcases (mem_arrAppendFold _ vs acc p).1 hp with hp | ⟨hk, _⟩
        · exact hacc p hp
        · rw [hk]; exact hkey
      | str v =>
        rw [hv] at hp
        rcases (mem_headersSet acc _ v p).1 hp with ⟨hp, _⟩ | rfl
        · exact hacc p hp
        · exact hkey

theorem toHeaders_fold_stripped :
    ∀ (hs : List (Str × NodeHeaderValue)) (acc : List (Str × Str)),
      (∀ p ∈ acc, isStrippedHeaderName p.1 = false) →
      ∀ p ∈ hs.foldl (toHeadersStep true) acc, isStrippedHeaderName p.1 = false := by
  intro hs
  induction hs with
  | nil => intro acc hacc p hp; rw [List.foldl_nil] at hp; exact hacc p hp
  | cons kv hs ih =>
    intro acc hacc p hp
    rw [List.foldl_cons] at hp
    exact ih _ (toHeadersStep_stripped_invariant acc kv hacc) p hp

theorem mem_toHeaders_fold_of_mem :
    ∀ (hs : List (Str × NodeHeaderValue)) (acc : List (Str × Str)) (p : Str × Str),
      p ∈ acc → (∀ kv ∈ hs, strToLower kv.1 ≠ p.1) →
      p ∈ hs.foldl (toHeadersStep true) acc := by
  intro hs
  induction hs with
  | nil => intro acc p hp _; rw [List.foldl_nil]; exact hp
  | cons kv hs ih =>
    intro acc p hp hkeys
    rw [List.foldl_cons]
    refine ih _ p ?_ (fun kv' h => hkeys kv' (List.mem_cons_of_mem kv h))
    unfold toHeadersStep
    split_ifs with h1 h2
    · exact hp
    · exact hp
    · cases hv : kv.2 with
      | arr vs => exact (mem_arrAppendFold _ vs acc p).2 (Or.inl hp)
      | str v =>
        refine (mem_headersSet acc _ v p).2 (Or.inl ⟨hp, ?_⟩)
        exact fun hk => hkeys kv (List.mem_cons_self kv hs) (hk ▸ rfl)

theorem toHeaders_preserves_nonstripped :
    ∀ (hs : List (Str × NodeHeaderValue)) (acc : List (Str × Str)),
      (hs.map (fun kv => strToLower kv.1)).Nodup →
      ∀ kv ∈ hs, isStrippedHeaderName (strToLower kv.1) = false →
        (∀ v, kv.2 = NodeHeaderValue.str v →
          (strToLower kv.1, v) ∈ hs.foldl (toHeadersStep true) acc)
        ∧ (∀ vs v, kv.2 = NodeHeaderValue.arr vs → v ∈ vs →
          (strToLower kv.1, v) ∈ hs.foldl (toHeadersStep true) acc) := by
  intro hs
  induction hs with
  | nil => intro acc _ kv hkv; exact absurd hkv (List.not_mem_nil kv)
  | cons kv0 hs ih =>
    intro acc hnodup kv hkv hstrip
    rcases List.mem_cons.1 hkv with rfl | htail
    · -- the entry is processed first; its pair survives the rest of the fold
      have hkeys : ∀ kv' ∈ hs, strToLower kv'.1 ≠ strToLower kv.1 := by
        have h0 := (List.nodup_cons.1 hnodup).1
        intro kv' h' heq
        have hmem : strToLower kv'.1 ∈ List.map (fun kv => strToLower kv.1) hs :=
          List.mem_map_of_mem (fun kv => strToLower kv.1) h'
        rw [heq] at hmem
        exact h0 hmem
      have hne1 : strToLower kv.1 ≠ "host".data := by
        intro h
        rw [isStrippedHeaderName, h] at hstrip
        simp at hstrip
      have hne2 : ¬((strToLower kv.1 = "origin".data ∨ strToLower kv.1 = "referer".data) ∨
          strStartsWith (strToLower kv.1) "sec-fetch-".data = true) := by
        intro h
        rcases h with (h | h) | h
        · rw [isStrippedHeaderName, h] at hstrip; simp at hstrip
        · rw [isStrippedHeaderName, h] at hstrip; simp at hstrip
        · rw [isStrippedHeaderName] at hstrip; rw [h] at hstrip; simp at hstrip
      constructor
      · intro v hv
        rw [List.foldl_cons]
        refine mem_toHeaders_fold_of_mem hs _ _ ?_ hkeys
        unfold toHeadersStep
        rw [if_neg hne1, if_neg (by simpa using hne2), hv]
        exact (mem_headersSet acc _ v _).2 (Or.inr rfl)
      · intro vs v hv hvin
        rw [List.foldl_cons]
        refine mem_toHeaders_fold_of_mem hs _ _ ?_ hkeys
        unfold toHeadersStep
        rw [if_neg hne1, if_neg (by simpa using hne2), hv]
        exact (mem_arrAppendFold _ vs acc _).2 (Or.inr ⟨rfl, hvin⟩)
    · rw [List.foldl_cons]
      exact ih _ (List.nodup_cons.1 hnodup).2 kv htail hstrip

/-- C10: the header set built by `toHeaders` with `stripOrigin` true — the set
used both for the cloud proxy and for the `Request` handed to a local handler —
contains no `host`, `origin` or `referer` header and no header whose lowercased
name starts with `sec-fetch-`, while every other incoming header (its values,
under its lowercased name) is preserved. -/
theorem toHeaders_strips_browser_origin_headers :
    (∀ nodeHeaders, proxyHeaders nodeHeaders = toHeaders nodeHeaders true)
    ∧ (∀ nodeHeaders, handlerRequestHeaders nodeHeaders = toHeaders nodeHeaders true)
    ∧ (∀ nodeHeaders, ∀ p ∈ toHeaders nodeHeaders true,
        p.1 ≠ "host".data ∧ p.1 ≠ "origin".data ∧ p.1 ≠ "referer".data ∧
          strStartsWith p.1 "sec-fetch-".data = false)
    ∧ (∀ nodeHeaders : List (Str × NodeHeaderValue),
        (nodeHeaders.map (fun kv => strToLower kv.1)).Nodup →
        ∀ kv ∈ nodeHeaders, isStrippedHeaderName (strToLower kv.1) = false →
          (∀ v, kv.2 = NodeHeaderValue.str v →
            (strToLower kv.1, v) ∈ toHeaders nodeHeaders true)
          ∧ (∀ vs v, kv.2 = NodeHeaderValue.arr vs → v ∈ vs →
            (strToLower kv.1, v) ∈ toHeaders nodeHeaders true)) := by
  refine ⟨fun _ => rfl, fun _ => rfl, ?_, ?_⟩
  · intro nodeHeaders p hp
    have h := toHeaders_fold_stripped nodeHeaders [] (by simp) p hp
    rw [isStrippedHeaderName] at h
    simp only [Bool.or_eq_false_iff, decide_eq_false_iff_not] at h
    exact ⟨h.1.1.1, h.1.1.2, h.1.2, h.2⟩
  · intro nodeHeaders hnodup kv hkv hstrip
    exact toHeaders_preserves_nonstripped nodeHeaders [] hnodup kv hkv hstrip

theorem toHeaders_strips_browser_origin_headers_witness :
    (([(("Origin".data : Str), NodeHeaderValue.str "https://x".data),
        ("Accept".data, NodeHeaderValue.str "text/html".data)].map
          (fun kv => strToLower kv.1)).Nodup
      ∧ ("Accept".data, NodeHeaderValue.str "text/html".data) ∈
          [(("Origin".data : Str), NodeHeaderValue.str "https://x".data),
            ("Accept".data, NodeHeaderValue.str "text/html".data)]
      ∧ isStrippedHeaderName (strToLower "Accept".data) = false)
    ∧ (strToLower "Accept".data, "text/html".data) ∈
        toHeaders [(("Origin".data : Str), NodeHeaderValue.str "https://x".data),
          ("Accept".data, NodeHeaderValue.str "text/html".data)] true :=
  ⟨⟨by decide, by decide, by decide⟩,
    (toHeaders_strips_browser_origin_headers.2.2.2
      [(("Origin".data : Str), NodeHeaderValue.str "https://x".data),
        ("Accept".data, NodeHeaderValue.str "text/html".data)]
      (by decide) ("Accept".data, NodeHeaderValue.str "text/html".data)
      (by decide) (by decide)).1 "text/html".data rfl⟩

end WorldMonitor
